import Mathlib

/-!
Verification of the cadence-scheduling core of the `checked` team check-in
tracker (source: `src/db.ts`).

Modelling conventions (shallow embedding):

- The code operates on local calendar dates written `YYYY-MM-DD`.  Every
  operation on a successfully parsed date (`parseDate`, `diffDays`, `addDays`,
  `formatLocalDate`) factors through the timestamp of local midnight, i.e.
  through the day ordinal "days since epoch": the spec fixes a timezone model
  with no daylight-saving transitions, so `diffDays` is exactly the difference
  of day ordinals and `addDays` is ordinal addition.  We therefore represent a
  date string either as `DateStr.canon n` (a canonical `YYYY-MM-DD` string
  naming the valid calendar date with day ordinal `n`) or as
  `DateStr.malformed s` (a string that neither matches the
  `^\d{4}-\d{2}-\d{2}$` shape test of `normalizeDate` nor parses via
  `new Date(s + "T00:00:00")`).  Strings outside these two classes (shape-valid
  but non-dates such as "2024-02-31", or parseable but non-canonical strings)
  are outside the model; every claim quantifies only over canonical dates and
  fully malformed strings.  The empty string is falsy in JS and is represented
  by `Option.none` where the code tests truthiness, and by a `malformed` value
  where it is passed straight through (both paths behave identically).
- Lexicographic comparison of canonical date strings (four-digit years) agrees
  with the numeric order of their day ordinals; `DateStr.le` / `DateStr.lt`
  model the string comparisons `<=`, `>` and `localeCompare` accordingly.  The
  only malformed string the scheduler itself can produce is "NaN-NaN-NaN"
  (from `formatLocalDate` of an invalid `Date`), which begins with a letter
  and hence sorts after every digit-initial canonical date.
- JS numbers appearing as `cadence_days` are modelled as `Option Int`:
  `none` is a non-finite value (`NaN`, infinities, failing
  `Number.isFinite`), `some c` a finite integer.  Finite non-integer values
  are outside the model; the claims quantify over integers and non-numeric
  values only.  On the reachable sign combinations (non-negative dividend,
  positive divisor) the JS operations `Math.floor(a / b)` and `a % b`
  coincide with Lean's Euclidean `/` and `%` on `Int`.
- `today()` reads the system clock; following the spec it is injected as an
  explicit day-ordinal parameter `todayD` on every operation.
- The SQLite record store is modelled by passing the relevant row(s) and the
  team's last check-in date (`getLastTeamCheckinDate`, already truncated to a
  local calendar date by `toLocalDate`, `none` when absent or unparseable) as
  explicit arguments; operations that persist data return the updated row.
  All functions in the model are total: no operation throws.
-/

namespace Checked

/-- A calendar-date string as seen by the scheduler: either a canonical
`YYYY-MM-DD` string denoting the valid calendar date with the given day
ordinal, or a malformed string that fails both the shape test and parsing. -/
inductive DateStr where
  | canon (ordinal : Int)
  | malformed (s : String)
deriving DecidableEq, Repr

/-- Model of `parseDate` composed with `getTime`: the local-midnight timestamp
of a date string, as a day ordinal; `none` models an invalid `Date` (`NaN`). -/
def parseDate : DateStr → Option Int
  | .canon n => some n
  | .malformed _ => none

/-- True exactly when the string fails to parse as a valid calendar date. -/
def DateStr.isMalformed : DateStr → Bool
  | .canon _ => false
  | .malformed _ => true

/-- Model of `diffDays` (src/db.ts:131-136): whole days from start to end,
`0` when either input fails to parse.  With no daylight-saving shifts the
millisecond difference of local midnights is an exact multiple of 86400000,
so `Math.floor` is exact and the result is the ordinal difference. -/
def diffDays (startDate endDate : DateStr) : Int :=
  match parseDate startDate, parseDate endDate with
  | some s, some e => e - s
  | _, _ => 0

/-- Model of `calculateMissedCount` (src/db.ts:138-147).  `nextDue` is `none`
when the string is empty (falsy); `cadenceDays` is `none` when not finite. -/
def calculateMissedCount (nextDue : Option DateStr) (cadenceDays : Option Int)
    (referenceDate : DateStr) : Int :=
  match nextDue, cadenceDays with
  | none, _ => 0
  | _, none => 0
  | some nd, some c =>
    if c ≤ 0 then 0
    else
      let daysLate := diffDays nd referenceDate
      if daysLate ≤ 0 then 0
      else (daysLate - 1) / c + 1

/-- Model of `normalizeDate` (src/db.ts:149-153): absent, empty or
shape-invalid input falls back to `today()` (the injected `todayD`);
canonical strings pass the `^\d{4}-\d{2}-\d{2}$` test and are returned
unchanged. -/
def normalizeDate (todayD : Int) : Option DateStr → DateStr
  | none => .canon todayD
  | some (.canon n) => .canon n
  | some (.malformed _) => .canon todayD

/-- Model of `addDays` (src/db.ts:162-166): a pure calendar-grid shift, i.e.
ordinal addition on a valid date.  On an unparseable string the `Date` is
invalid and `formatLocalDate` renders "NaN-NaN-NaN". -/
def addDays (dateString : DateStr) (days : Int) : DateStr :=
  match dateString with
  | .canon n => .canon (n + days)
  | .malformed _ => .malformed "NaN-NaN-NaN"

/-- Model of `calculateNextDueDate` (src/db.ts:271-287). -/
def calculateNextDueDate (todayD : Int) (startDateInput : DateStr)
    (cadenceDays : Option Int) (lastCheckinDate : Option DateStr) : DateStr :=
  let startDate := normalizeDate todayD (some startDateInput)
  match cadenceDays with
  | none => startDate
  | some c =>
    if c ≤ 0 then startDate
    else
      match lastCheckinDate with
      | none => startDate
      | some last =>
        let lastDate := normalizeDate todayD (some last)
        let daysSinceStart := diffDays startDate lastDate
        if daysSinceStart < 0 then startDate
        else if daysSinceStart % c = 0 then addDays lastDate c
        else addDays startDate ((daysSinceStart / c + 1) * c)

/-- A persisted `checkin_schedules` row (the columns the scheduler reads).
`start_date` and `next_due` are `none` when the stored text is empty (falsy);
`cadence_days` is `none` when `Number(...)` of the stored value is not
finite. -/
structure ScheduleRow where
  cadence_days : Option Int
  start_date : Option DateStr
  next_due : Option DateStr
deriving DecidableEq, Repr

/-- The object returned by `getSchedule`: the stored row spread together with
the resolved start date, the recomputed next-due date and missed count. -/
structure ResolvedSchedule where
  cadence_days : Option Int
  start_date : DateStr
  next_due : DateStr
  missed_count : Int
deriving DecidableEq, Repr

/-- Model of `getSchedule` (src/db.ts:289-310) for an existing row.
`lastCheckinDate` is the result of `getLastTeamCheckinDate` for the team. -/
def getSchedule (todayD : Int) (schedule : ScheduleRow)
    (lastCheckinDate : Option DateStr) : ResolvedSchedule :=
  let startDate :=
    match schedule.start_date with
    | some s => s
    | none =>
      match schedule.next_due with
      | some n => n
      | none => .canon todayD
  let nextDue := calculateNextDueDate todayD startDate schedule.cadence_days lastCheckinDate
  { cadence_days := schedule.cadence_days
    start_date := startDate
    next_due := nextDue
    missed_count := calculateMissedCount (some nextDue) schedule.cadence_days (.canon todayD) }

/-- Model of `upsertSchedule` (src/db.ts:312-335): `existing` is the current
row for the team if any; the result is the persisted row together with the
returned date. -/
def upsertSchedule (todayD : Int) (existing : Option ScheduleRow)
    (cadenceDays : Option Int) (startDateInput : Option DateStr)
    (lastCheckinDate : Option DateStr) : ScheduleRow × DateStr :=
  let startDate := normalizeDate todayD startDateInput
  let nextDue := calculateNextDueDate todayD startDate cadenceDays lastCheckinDate
  match existing with
  | some _ =>
    ({ cadence_days := cadenceDays, start_date := some startDate,
       next_due := some nextDue }, nextDue)
  | none =>
    ({ cadence_days := cadenceDays, start_date := some startDate,
       next_due := some startDate }, startDate)

/-- Model of the scheduling part of `createCheckin` (src/db.ts:345-369) when a
schedule row exists: the just-inserted check-in row is dated `now()`, so the
schedule is re-read and the stored `next_due` is recomputed with `today()` as
the last-check-in date.  Returns the updated row and the returned date. -/
def createCheckin (todayD : Int) (row : ScheduleRow)
    (lastCheckinDate : Option DateStr) : ScheduleRow × DateStr :=
  let schedule := getSchedule todayD row lastCheckinDate
  let nextDue := calculateNextDueDate todayD schedule.start_date schedule.cadence_days
    (some (.canon todayD))
  ({ row with next_due := some nextDue }, nextDue)

/-- Model of the string comparison `a <= b` on date strings (and of a
non-positive `localeCompare`): canonical four-digit-year strings compare by
day ordinal; "NaN-NaN-NaN", the only malformed string the scheduler produces,
begins with a letter and sorts after every digit-initial date string. -/
def DateStr.le (a b : DateStr) : Bool :=
  match a, b with
  | .canon x, .canon y => decide (x ≤ y)
  | .canon _, .malformed _ => true
  | .malformed _, .canon _ => false
  | .malformed s, .malformed t => decide (s ≤ t)

/-- Model of the strict string comparison `a < b` on date strings (the code
writes `row.next_due > referenceDate`, i.e. `referenceDate < row.next_due`). -/
def DateStr.lt (a b : DateStr) : Bool :=
  match a, b with
  | .canon x, .canon y => decide (x < y)
  | .canon _, .malformed _ => true
  | .malformed _, .canon _ => false
  | .malformed s, .malformed t => decide (s < t)

/-- A row of `listScheduledTeams` (src/db.ts:386-406), restricted to the
fields the due/upcoming computations read.  `last_checkin_at` is its value
already passed through `toLocalDate` (`none` when absent or unparseable). -/
structure TeamRow where
  team_id : Int
  start_date : DateStr
  cadence_days : Option Int
  last_checkin_at : Option DateStr
deriving DecidableEq, Repr

/-- A row of the `listDueCheckins` result: the team row spread together with
the recomputed `next_due` and `missed_count`. -/
structure DueRow where
  team_id : Int
  start_date : DateStr
  cadence_days : Option Int
  last_checkin_at : Option DateStr
  next_due : DateStr
  missed_count : Int
deriving DecidableEq, Repr

/-- A row of the `listUpcomingCheckins` result: the team row spread together
with the recomputed `next_due` only. -/
structure UpcomingRow where
  team_id : Int
  start_date : DateStr
  cadence_days : Option Int
  last_checkin_at : Option DateStr
  next_due : DateStr
deriving DecidableEq, Repr

/-- The `map` step of `listDueCheckins` (src/db.ts:430-456). -/
def augmentDue (todayD : Int) (row : TeamRow) : DueRow :=
  let nextDue := calculateNextDueDate todayD row.start_date row.cadence_days row.last_checkin_at
  { team_id := row.team_id
    start_date := row.start_date
    cadence_days := row.cadence_days
    last_checkin_at := row.last_checkin_at
    next_due := nextDue
    missed_count := calculateMissedCount (some nextDue) row.cadence_days (.canon todayD) }

/-- Model of `listDueCheckins` (src/db.ts:427-461): map, then keep rows with
`next_due <= referenceDate`, then sort ascending by `next_due`.
`Array.prototype.sort` is a stable comparison sort, as is `List.mergeSort`;
for a total preorder comparator both produce the same (unique) stable sorted
permutation. -/
def listDueCheckins (todayD : Int) (rows : List TeamRow) : List DueRow :=
  (((rows.map (augmentDue todayD)).filter
      (fun row => DateStr.le row.next_due (.canon todayD))).mergeSort
    (fun a b => DateStr.le a.next_due b.next_due))

/-- The `map` step of `listUpcomingCheckins` (src/db.ts:466-487). -/
def augmentUpcoming (todayD : Int) (row : TeamRow) : UpcomingRow :=
  let nextDue := calculateNextDueDate todayD row.start_date row.cadence_days row.last_checkin_at
  { team_id := row.team_id
    start_date := row.start_date
    cadence_days := row.cadence_days
    last_checkin_at := row.last_checkin_at
    next_due := nextDue }

/-- Model of `listUpcomingCheckins` (src/db.ts:463-493): map, keep rows with
`next_due > referenceDate`, sort ascending by `next_due`, then `slice(0, limit)`
(the `limit` parameter defaults to 3 at the call site). -/
def listUpcomingCheckins (todayD : Int) (limit : Nat) (rows : List TeamRow) :
    List UpcomingRow :=
  ((((rows.map (augmentUpcoming todayD)).filter
      (fun row => DateStr.lt (.canon todayD) row.next_due)).mergeSort
    (fun a b => DateStr.le a.next_due b.next_due)).take limit)

/-! Arithmetic core of `calculateNextDueDate` on canonical inputs. -/

/-- Ordinal-level value of `calculateNextDueDate` when the anchor and the last
check-in are canonical dates (`a`, `l`) and the cadence `c` is a positive
integer. -/
def nextDueOrd (a c l : Int) : Int :=
  let e := l - a
  if e < 0 then a
  else if e % c = 0 then l + c
  else a + (e / c + 1) * c

theorem calculateNextDueDate_canon (todayD a c l : Int) (hc : 0 < c) :
    calculateNextDueDate todayD (.canon a) (some c) (some (.canon l)) =
      .canon (nextDueOrd a c l) := by
  unfold calculateNextDueDate nextDueOrd
  simp only [normalizeDate, diffDays, parseDate, addDays]
  rw [if_neg (not_le.mpr hc)]
  by_cases h1 : l - a < 0
  · simp [h1]
  · by_cases h2 : (l - a) % c = 0
    · simp [h1, h2]
    · simp [h1, h2]

/-- The recomputed due date is strictly after the last check-in date. -/
theorem lt_nextDueOrd {c : Int} (hc : 0 < c) (a l : Int) : l < nextDueOrd a c l := by
  unfold nextDueOrd
  by_cases h1 : l - a < 0
  · simpa [h1] using by omega
  · by_cases h2 : (l - a) % c = 0
    · simp only [h1, if_false, h2, if_true]
      omega
    · simp only [h1, if_false, h2, if_true]
      have hdm : c * ((l - a) / c) + (l - a) % c = l - a := Int.ediv_add_emod _ _
      have hlt : (l - a) % c < c := Int.emod_lt_of_pos _ hc
      have key : a + ((l - a) / c + 1) * c = l - (l - a) % c + c := by
        linear_combination hdm
      omega

/-- The recomputed due date lies on the anchor grid `a + n * c`, `n ≥ 0`. -/
theorem nextDueOrd_grid {c : Int} (hc : 0 < c) (a l : Int) :
    ∃ n : Int, 0 ≤ n ∧ nextDueOrd a c l = a + n * c := by
  unfold nextDueOrd
  by_cases h1 : l - a < 0
  · exact ⟨0, le_refl 0, by simp [h1]⟩
  · have hq : 0 ≤ (l - a) / c := Int.ediv_nonneg (by omega) hc.le
    have hdm : c * ((l - a) / c) + (l - a) % c = l - a := Int.ediv_add_emod _ _
    by_cases h2 : (l - a) % c = 0
    · refine ⟨(l - a) / c + 1, by omega, ?_⟩
      simp only [h1, if_false, h2, if_true]
      linear_combination -hdm + h2
    · exact ⟨(l - a) / c + 1, by omega, by simp [h1, h2]⟩

theorem calculateMissedCount_canon (nd c r : Int) (hc : 0 < c) :
    calculateMissedCount (some (.canon nd)) (some c) (.canon r) =
      if r - nd ≤ 0 then 0 else (r - nd - 1) / c + 1 := by
  show (if c ≤ 0 then 0
    else if diffDays (.canon nd) (.canon r) ≤ 0 then 0
    else (diffDays (.canon nd) (.canon r) - 1) / c + 1) = _
  rw [if_neg (not_le.mpr hc)]
  rfl

theorem DateStr.le_trans_bool {a b c : DateStr} (h1 : DateStr.le a b = true)
    (h2 : DateStr.le b c = true) : DateStr.le a c = true := by
  cases a <;> cases b <;> cases c <;>
    simp_all only [DateStr.le, decide_eq_true_eq, Bool.false_eq_true] <;>
    exact le_trans h1 h2

theorem DateStr.le_total_bool (a b : DateStr) :
    (DateStr.le a b || DateStr.le b a) = true := by
  cases a <;> cases b <;>
    simp only [DateStr.le, Bool.or_eq_true, decide_eq_true_eq, Bool.or_true,
      Bool.true_or] <;>
    first
      | rfl
      | exact le_total ..

/-! Claim theorems. -/

/-- C1: for a canonical anchor, a positive integer cadence and a present
canonical last-activity date with `elapsed = diffDays(anchor, last) ≥ 0`, the
next due date is `addDays(last, period)` when `elapsed` is an exact multiple
of the period (including zero), and `addDays(anchor, k * period)` with
`k = floor(elapsed / period) + 1` otherwise. -/
theorem nextDueDate_cases (todayD a c l : Int) (hc : 0 < c)
    (he : 0 ≤ diffDays (.canon a) (.canon l)) :
    (diffDays (.canon a) (.canon l) % c = 0 →
      calculateNextDueDate todayD (.canon a) (some c) (some (.canon l)) =
        addDays (.canon l) c) ∧
    (diffDays (.canon a) (.canon l) % c ≠ 0 →
      calculateNextDueDate todayD (.canon a) (some c) (some (.canon l)) =
        addDays (.canon a) ((diffDays (.canon a) (.canon l) / c + 1) * c)) := by
  have hdiff : diffDays (.canon a) (.canon l) = l - a := rfl
  rw [calculateNextDueDate_canon todayD a c l hc]
  unfold nextDueOrd
  rw [hdiff] at he ⊢
  constructor
  · intro h2
    simp [not_lt.mpr he, h2, addDays]
  · intro h2
    simp [not_lt.mpr he, h2, addDays]

/-- Witness for C1 at the spec §8 scenario offsets: anchor ordinal 0
(2024-01-01), period 7, last activity at ordinal 9 (2024-01-10); the elapsed
9 days are not a multiple of 7, `k = floor(9/7) + 1 = 2`, so the due date is
the anchor plus 14 days (2024-01-15). -/
theorem nextDueDate_cases_witness :
    calculateNextDueDate 0 (.canon 0) (some 7) (some (.canon 9)) = .canon 14 := by
  have h := (nextDueDate_cases 0 0 7 9 (by decide) (by decide)).2 (by decide)
  rw [h]; decide

/-- C2: for a canonical anchor, a positive integer cadence and a present
canonical last-activity date, the next due date lies on the grid
`addDays(anchor, n * period)` for some non-negative integer `n` and is
strictly greater than the last-activity date (strict string comparison of
canonical dates, i.e. ordinal order). -/
theorem nextDueDate_postcondition (todayD a c l : Int) (hc : 0 < c) :
    ∃ n : Int, 0 ≤ n ∧
      calculateNextDueDate todayD (.canon a) (some c) (some (.canon l)) =
        addDays (.canon a) (n * c) ∧
      DateStr.lt (.canon l)
        (calculateNextDueDate todayD (.canon a) (some c) (some (.canon l))) = true := by
  obtain ⟨n, hn, hgrid⟩ := nextDueOrd_grid hc a l
  refine ⟨n, hn, ?_, ?_⟩
  · rw [calculateNextDueDate_canon todayD a c l hc, hgrid]
    rfl
  · rw [calculateNextDueDate_canon todayD a c l hc]
    simp [DateStr.lt, lt_nextDueOrd hc a l]

/-- Witness for C2 at anchor ordinal 0, period 7, last activity ordinal 3. -/
theorem nextDueDate_postcondition_witness :
    ∃ n : Int, 0 ≤ n ∧
      calculateNextDueDate 0 (.canon 0) (some 7) (some (.canon 3)) =
        addDays (.canon 0) (n * 7) ∧
      DateStr.lt (.canon 3)
        (calculateNextDueDate 0 (.canon 0) (some 7) (some (.canon 3))) = true :=
  nextDueDate_postcondition 0 0 7 3 (by decide)

/-- C5: with a canonical anchor and a cadence that is not a positive integer
(non-numeric, zero or negative), `calculateNextDueDate` returns the anchor
unchanged for every optional last activity, and the resolved schedule's
missed count is 0 for every reference date `todayD`. -/
theorem invalid_cadence_fallback (todayD a : Int) (cad : Option Int)
    (hcad : cad = none ∨ ∃ z, cad = some z ∧ z ≤ 0)
    (last : Option DateStr) (nd : Option DateStr) :
    calculateNextDueDate todayD (.canon a) cad last = .canon a ∧
    (getSchedule todayD ⟨cad, some (.canon a), nd⟩ last).next_due = .canon a ∧
    (getSchedule todayD ⟨cad, some (.canon a), nd⟩ last).missed_count = 0 := by
  rcases hcad with h | ⟨z, hz, hzle⟩
  · subst h
    exact ⟨rfl, rfl, rfl⟩
  · subst hz
    refine ⟨?_, ?_, ?_⟩
    · simp [calculateNextDueDate, if_pos hzle, normalizeDate]
    · simp [getSchedule, calculateNextDueDate, if_pos hzle, normalizeDate]
    · simp [getSchedule, calculateMissedCount, if_pos hzle]

/-- Witness for C5 at anchor ordinal 5, cadence 0, no activity. -/
theorem invalid_cadence_fallback_witness :
    calculateNextDueDate 11 (.canon 5) (some 0) none = .canon 5 ∧
    (getSchedule 11 ⟨some 0, some (.canon 5), none⟩ none).next_due = .canon 5 ∧
    (getSchedule 11 ⟨some 0, some (.canon 5), none⟩ none).missed_count = 0 :=
  invalid_cadence_fallback 11 5 (some 0) (Or.inr ⟨0, rfl, le_refl 0⟩) none none

/-- C6: `diffDays` is a total function (the model has no exceptions), and it
returns 0 whenever either input string fails to parse as a valid calendar
date. -/
theorem diffDays_malformed (s e : DateStr)
    (h : s.isMalformed = true ∨ e.isMalformed = true) :
    diffDays s e = 0 := by
  rcases h with h | h <;> cases s <;> cases e <;>
    simp_all [DateStr.isMalformed, diffDays, parseDate]

/-- Witness for C6: `diffDays("not-a-date", "2024-01-01")` is 0 (ordinal
19723 is 2024-01-01 as days since 1970-01-01). -/
theorem diffDays_malformed_witness :
    diffDays (.malformed "not-a-date") (.canon 19723) = 0 :=
  diffDays_malformed (.malformed "not-a-date") (.canon 19723) (Or.inl rfl)

/-- C7: activity recorded exactly on the anchor rolls the due date forward by
exactly one period: `diffDays(anchor, nextDueDate(anchor, c, anchor)) = c`. -/
theorem anchor_activity_rolls_one_period (todayD a c : Int) (hc : 0 < c) :
    diffDays (.canon a)
      (calculateNextDueDate todayD (.canon a) (some c) (some (.canon a))) = c := by
  rw [calculateNextDueDate_canon todayD a c a hc]
  unfold nextDueOrd
  simp [diffDays, parseDate]

/-- Witness for C7 at anchor ordinal 19723 (2024-01-01), period 7. -/
theorem anchor_activity_rolls_one_period_witness :
    diffDays (.canon 19723)
      (calculateNextDueDate 19723 (.canon 19723) (some 7) (some (.canon 19723))) = 7 :=
  anchor_activity_rolls_one_period 19723 19723 7 (by decide)

/-- C10: for a schedule row with a canonical stored start date and a positive
integer cadence, the `next_due` persisted by `createCheckin` is a canonical
date strictly greater than the reference date `todayD`. -/
theorem createCheckin_future_due (todayD : Int) (row : ScheduleRow)
    (last : Option DateStr) (a c : Int)
    (hstart : row.start_date = some (.canon a))
    (hcad : row.cadence_days = some c) (hc : 0 < c) :
    ∃ m : Int, (createCheckin todayD row last).1.next_due = some (.canon m) ∧
      todayD < m := by
  refine ⟨nextDueOrd a c todayD, ?_, lt_nextDueOrd hc a todayD⟩
  unfold createCheckin getSchedule
  simp [hstart, hcad, calculateNextDueDate_canon todayD a c todayD hc]

/-- Witness for C10: start date at ordinal 0, cadence 7, reference day 20;
the persisted due date is day 21 > 20. -/
theorem createCheckin_future_due_witness :
    ∃ m : Int,
      (createCheckin 20 ⟨some 7, some (.canon 0), some (.canon 7)⟩ none).1.next_due =
        some (.canon m) ∧ 20 < m :=
  createCheckin_future_due 20 ⟨some 7, some (.canon 0), some (.canon 7)⟩ none 0 7
    rfl rfl (by decide)

/-- C3: for a non-empty canonical `next_due`, a positive integer cadence and a
canonical reference date, the missed count is 0 when
`days_late = diffDays(next_due, reference) ≤ 0` and
`floor((days_late - 1) / period) + 1` otherwise; with period 7 the reference
dates `next_due`, `next_due + 1`, `next_due + 7` and `next_due + 8` yield 0,
1, 1 and 2. -/
theorem missedCount_spec (nd c r : Int) (hc : 0 < c) :
    (diffDays (.canon nd) (.canon r) ≤ 0 →
      calculateMissedCount (some (.canon nd)) (some c) (.canon r) = 0) ∧
    (0 < diffDays (.canon nd) (.canon r) →
      calculateMissedCount (some (.canon nd)) (some c) (.canon r) =
        (diffDays (.canon nd) (.canon r) - 1) / c + 1) ∧
    calculateMissedCount (some (.canon nd)) (some 7) (.canon nd) = 0 ∧
    calculateMissedCount (some (.canon nd)) (some 7) (.canon (nd + 1)) = 1 ∧
    calculateMissedCount (some (.canon nd)) (some 7) (.canon (nd + 7)) = 1 ∧
    calculateMissedCount (some (.canon nd)) (some 7) (.canon (nd + 8)) = 2 := by
  have hdiff : ∀ x : Int, diffDays (.canon nd) (.canon x) = x - nd := fun _ => rfl
  have seven : (0 : Int) < 7 := by decide
  refine ⟨?_, ?_, ?_, ?_, ?_, ?_⟩
  · intro h
    rw [hdiff] at h
    rw [calculateMissedCount_canon nd c r hc, if_pos h]
  · intro h
    rw [hdiff] at h
    rw [calculateMissedCount_canon nd c r hc, if_neg (by omega)]
    rw [hdiff]
  · rw [calculateMissedCount_canon nd 7 nd seven, if_pos (by omega)]
  · rw [calculateMissedCount_canon nd 7 (nd + 1) seven, if_neg (by omega)]
    omega
  · rw [calculateMissedCount_canon nd 7 (nd + 7) seven, if_neg (by omega)]
    omega
  · rw [calculateMissedCount_canon nd 7 (nd + 8) seven, if_neg (by omega)]
    omega

/-- Witness for C3 at `next_due` ordinal 0, period 7, reference ordinal 10. -/
theorem missedCount_spec_witness :
    (diffDays (.canon 0) (.canon 10) ≤ 0 →
      calculateMissedCount (some (.canon 0)) (some 7) (.canon 10) = 0) ∧
    (0 < diffDays (.canon 0) (.canon 10) →
      calculateMissedCount (some (.canon 0)) (some 7) (.canon 10) =
        (diffDays (.canon 0) (.canon 10) - 1) / 7 + 1) ∧
    calculateMissedCount (some (.canon 0)) (some 7) (.canon 0) = 0 ∧
    calculateMissedCount (some (.canon 0)) (some 7) (.canon (0 + 1)) = 1 ∧
    calculateMissedCount (some (.canon 0)) (some 7) (.canon (0 + 7)) = 1 ∧
    calculateMissedCount (some (.canon 0)) (some 7) (.canon (0 + 8)) = 2 :=
  missedCount_spec 0 7 10 (by decide)

/-- C4 counterexample: two stored rows that differ only in the persisted
`next_due` column (both with an empty `start_date`, cadence 7, no check-ins,
reference day 50) resolve to different `next_due` and `missed_count`,
because `getSchedule` falls back to the stored `next_due` when the stored
`start_date` is empty (`schedule.start_date || schedule.next_due || today()`). -/
theorem getSchedule_reads_stored_next_due :
    ¬ ((getSchedule 50 ⟨some 7, none, some (.canon 0)⟩ none).next_due =
        (getSchedule 50 ⟨some 7, none, some (.canon 100)⟩ none).next_due ∧
      (getSchedule 50 ⟨some 7, none, some (.canon 0)⟩ none).missed_count =
        (getSchedule 50 ⟨some 7, none, some (.canon 100)⟩ none).missed_count) := by
  decide

/-- C4 (amended): for stored rows whose `start_date` column is non-empty, the
resolved `(next_due, missed_count)` depends only on the stored start date,
the stored cadence, the last check-in date and the reference date — two reads
differing only in the persisted `next_due` agree on both outputs. -/
theorem getSchedule_ignores_stored_next_due (todayD : Int) (r1 r2 : ScheduleRow)
    (last : Option DateStr) (s : DateStr)
    (h1 : r1.start_date = some s) (h2 : r2.start_date = some s)
    (hcad : r1.cadence_days = r2.cadence_days) :
    (getSchedule todayD r1 last).next_due = (getSchedule todayD r2 last).next_due ∧
    (getSchedule todayD r1 last).missed_count =
      (getSchedule todayD r2 last).missed_count := by
  unfold getSchedule
  rw [h1, h2, hcad]
  exact ⟨rfl, rfl⟩

/-- Witness for the amended C4: rows sharing start day 0 and cadence 7 but
with different persisted `next_due` values resolve identically. -/
theorem getSchedule_ignores_stored_next_due_witness :
    (getSchedule 50 ⟨some 7, some (.canon 0), some (.canon 0)⟩ none).next_due =
      (getSchedule 50 ⟨some 7, some (.canon 0), some (.canon 100)⟩ none).next_due ∧
    (getSchedule 50 ⟨some 7, some (.canon 0), some (.canon 0)⟩ none).missed_count =
      (getSchedule 50 ⟨some 7, some (.canon 0), some (.canon 100)⟩ none).missed_count :=
  getSchedule_ignores_stored_next_due 50 ⟨some 7, some (.canon 0), some (.canon 0)⟩
    ⟨some 7, some (.canon 0), some (.canon 100)⟩ none (.canon 0) rfl rfl rfl

/-- C9: when no schedule row exists, `upsertSchedule` persists the normalized
start date itself as `next_due` and returns it, ignoring prior check-in
activity; when a row exists it persists and returns the recomputed next due
date.  The final conjunct exhibits inputs where the recomputed date differs
from the start date yet the insert still stores the start date. -/
theorem upsertSchedule_insert_vs_update (todayD : Int) (cad : Option Int)
    (sd : Option DateStr) (last : Option DateStr) (r : ScheduleRow) :
    (upsertSchedule todayD none cad sd last).1.next_due =
        some (normalizeDate todayD sd) ∧
    (upsertSchedule todayD none cad sd last).2 = normalizeDate todayD sd ∧
    (upsertSchedule todayD (some r) cad sd last).1.next_due =
        some (calculateNextDueDate todayD (normalizeDate todayD sd) cad last) ∧
    (upsertSchedule todayD (some r) cad sd last).2 =
        calculateNextDueDate todayD (normalizeDate todayD sd) cad last ∧
    ∃ (todayE : Int) (cadE : Option Int) (sdE lastE : Option DateStr),
      calculateNextDueDate todayE (normalizeDate todayE sdE) cadE lastE ≠
        normalizeDate todayE sdE ∧
      (upsertSchedule todayE none cadE sdE lastE).1.next_due =
        some (normalizeDate todayE sdE) := by
  refine ⟨rfl, rfl, rfl, rfl, 0, some 7, some (.canon 0), some (.canon 0), ?_, rfl⟩
  decide

/-- C8: `listDueCheckins` is a sorted arrangement (ascending by `next_due`) of
exactly the scheduled teams whose recomputed `next_due` is on or before the
reference date, and `listUpcomingCheckins` is the `limit`-truncation (default
3 at the call site) of a sorted arrangement of exactly the teams whose
recomputed `next_due` is strictly after the reference date. -/
theorem listDue_listUpcoming_spec (todayD : Int) (rows : List TeamRow) (limit : Nat) :
    ((listDueCheckins todayD rows).Perm
        ((rows.map (augmentDue todayD)).filter
          (fun row => DateStr.le row.next_due (.canon todayD))) ∧
      (listDueCheckins todayD rows).Pairwise
        (fun x y => DateStr.le x.next_due y.next_due = true)) ∧
    ∃ l : List UpcomingRow,
      l.Perm ((rows.map (augmentUpcoming todayD)).filter
          (fun row => DateStr.lt (.canon todayD) row.next_due)) ∧
      l.Pairwise (fun x y => DateStr.le x.next_due y.next_due = true) ∧
      listUpcomingCheckins todayD limit rows = l.take limit := by
  refine ⟨⟨List.mergeSort_perm _ _, ?_⟩, ?_⟩
  · exact @List.sorted_mergeSort (DueRow)
      (fun a b => DateStr.le a.next_due b.next_due)
      (fun _ _ _ h1 h2 => DateStr.le_trans_bool h1 h2)
      (fun _ _ => DateStr.le_total_bool _ _) _
  · refine ⟨((rows.map (augmentUpcoming todayD)).filter
        (fun row => DateStr.lt (.canon todayD) row.next_due)).mergeSort
        (fun a b => DateStr.le a.next_due b.next_due),
      List.mergeSort_perm _ _, ?_, ?_⟩
    · exact @List.sorted_mergeSort (UpcomingRow)
        (fun a b => DateStr.le a.next_due b.next_due)
        (fun _ _ _ h1 h2 => DateStr.le_trans_bool h1 h2)
        (fun _ _ => DateStr.le_total_bool _ _) _
    · rfl

end Checked
